import Mathlib

/-!
Shallow embedding of the WebRTC remote-desktop host (C++ sources under
src/), together with proofs about the properties its specification
states.  Each definition is translated from a named function of the
source; machine integers are modelled as `Nat`/`Int`, with `% 2^w`
wherever the source's fixed-width arithmetic can overflow.  The 32-bit
texture-pool in-flight mask of `FrameSlot` is modelled as the
`Finset ℕ` of its set bit positions (`fetch_or(1u << p)` is `insert p`,
`fetch_and(~(1u << p))` is `erase p`; callers only pass pool indices
`0 ≤ p < 8`).
-/

set_option maxHeartbeats 1000000

/-! ## FrameSlot (src/hpp/capture.hpp, lines 13-151)

`FrameData` holds a texture pointer (modelled as `Option Nat`: `none`
is `nullptr`), a capture timestamp, a GPU fence value and a texture
pool index (`Option Nat`: `none` is `-1`). -/

structure FrameData where
  tex : Option Nat
  ts : Int
  fence : Nat
  poolIdx : Option Nat
deriving DecidableEq, Repr

/-- Embeds `FrameData::Release`: drop the texture reference and forget the
pool index; timestamp and fence are left as they are. -/
def FrameData.release (f : FrameData) : FrameData :=
  { f with tex := none, poolIdx := none }

/-- State of `FrameSlot`: three cells, a write index, a read index
(`none` models `readIdx == -1`), the manual-reset event, the drop
counter and the in-flight mask. -/
structure FrameSlot where
  slots : Fin 3 → FrameData
  writeIdx : Fin 3
  readIdx : Option (Fin 3)
  eventSet : Bool
  dropCount : Nat
  inFlightMask : Finset Nat

/-- The freshly constructed `FrameSlot` (constructor at capture.hpp:42):
empty cells, `writeIdx = 0`, `readIdx = -1`, event not signalled. -/
def FrameSlot.init : FrameSlot :=
  { slots := fun _ => { tex := none, ts := 0, fence := 0, poolIdx := none }
    writeIdx := 0
    readIdx := none
    eventSet := false
    dropCount := 0
    inFlightMask := ∅ }

/-- Embeds `FrameSlot::Push` (capture.hpp:62-90).  Chooses the current write
cell, advances `writeIdx` (skipping the read cell), clears the pool bit
of the cell being overwritten, stores the new frame and sets its pool
bit, counts a drop when an unread frame existed, marks the new cell
read-ready and signals the event. -/
def FrameSlot.push (s : FrameSlot) (tex : Nat) (ts : Int) (fence : Nat)
    (poolIdx : Option Nat) : FrameSlot :=
  let idx := s.writeIdx
  let w1 : Fin 3 := idx + 1
  let w2 : Fin 3 := if some w1 = s.readIdx then w1 + 1 else w1
  let mask1 := match (s.slots idx).poolIdx with
    | some p => s.inFlightMask.erase p
    | none => s.inFlightMask
  let mask2 := match poolIdx with
    | some p => insert p mask1
    | none => mask1
  { slots := fun j => if j = idx then
        ({ tex := some tex, ts := ts, fence := fence, poolIdx := poolIdx } : FrameData)
      else s.slots j
    writeIdx := w2
    readIdx := some idx
    eventSet := true
    dropCount := if s.readIdx.isSome then s.dropCount + 1 else s.dropCount
    inFlightMask := mask2 }

/-- Embeds `FrameSlot::Pop` (capture.hpp:98-118).  Fails when the event is not
signalled (wait timeout) or no read cell exists; otherwise hands out
the read cell's frame, nulls that cell's texture and pool index (the
pool bit stays set until `MarkReleased`) and clears the read index. -/
def FrameSlot.pop (s : FrameSlot) : FrameSlot × Option FrameData :=
  if ¬ s.eventSet then (s, none)
  else
    let s1 := { s with eventSet := false }
    match s.readIdx with
    | none => (s1, none)
    | some r =>
      let out := s.slots r
      ({ s1 with
          slots := fun j => if j = r then { out with tex := none, poolIdx := none }
            else s.slots j
          readIdx := none }, some out)

/-- Embeds `FrameSlot::MarkReleased` (capture.hpp:120-124): clear the bit of a
nonnegative pool index. -/
def FrameSlot.markReleased (s : FrameSlot) (idx : Option Nat) : FrameSlot :=
  match idx with
  | some p => { s with inFlightMask := s.inFlightMask.erase p }
  | none => s

/-- Embeds `FrameSlot::Reset` (capture.hpp:130-140): clear the mask, release
every cell, reset indices and the event.  The drop counter is not
touched. -/
def FrameSlot.reset (s : FrameSlot) : FrameSlot :=
  { s with
    slots := fun j => (s.slots j).release
    writeIdx := 0
    readIdx := none
    eventSet := false
    inFlightMask := ∅ }

/-- The operations a client of `FrameSlot` may perform. -/
inductive SlotOp where
  | push (tex : Nat) (ts : Int) (fence : Nat) (poolIdx : Option Nat)
  | pop
  | markReleased (idx : Option Nat)
  | reset
deriving DecidableEq, Repr

def FrameSlot.applyOp (s : FrameSlot) : SlotOp → FrameSlot
  | .push t ts f p => s.push t ts f p
  | .pop => (s.pop).1
  | .markReleased i => s.markReleased i
  | .reset => s.reset

/-- Run a sequence of `FrameSlot` operations. -/
def FrameSlot.runOps (s : FrameSlot) (ops : List SlotOp) : FrameSlot :=
  ops.foldl FrameSlot.applyOp s

/-- The pool bits currently held by the slot's three cells. -/
def FrameSlot.cellBits (s : FrameSlot) : Finset Nat :=
  (Finset.univ : Finset (Fin 3)).biUnion fun j =>
    match (s.slots j).poolIdx with
    | some p => {p}
    | none => ∅

/-- Composite of `Pop` immediately followed by `MarkReleased` of the popped frame's
pool index — the discipline of the encoder thread (main.cpp:376-383),
which releases each popped frame's pool bit when it is done with it. -/
def FrameSlot.popRelease (s : FrameSlot) : FrameSlot :=
  let r := s.pop
  match r.2 with
  | some fd => r.1.markReleased fd.poolIdx
  | none => r.1

/-- Operation language in which every successful `Pop` is immediately
followed by the matching `MarkReleased`. -/
inductive SlotOpR where
  | push (tex : Nat) (ts : Int) (fence : Nat) (poolIdx : Option Nat)
  | popRelease
  | markReleased (idx : Option Nat)
  | reset
deriving DecidableEq, Repr

def FrameSlot.applyOpR (s : FrameSlot) : SlotOpR → FrameSlot
  | .push t ts f p => s.push t ts f p
  | .popRelease => s.popRelease
  | .markReleased i => s.markReleased i
  | .reset => s.reset

/-- Run a sequence of release-disciplined `FrameSlot` operations. -/
def FrameSlot.runOpsR (s : FrameSlot) (ops : List SlotOpR) : FrameSlot :=
  ops.foldl FrameSlot.applyOpR s

/-- Every mask bit is accounted for by some cell of the slot. -/
def FrameSlot.MaskInv (s : FrameSlot) : Prop :=
  s.inFlightMask ⊆ s.cellBits

/-- The read cell, when present, differs from the write cell. -/
def FrameSlot.ReadWriteInv (s : FrameSlot) : Prop :=
  ∀ r, s.readIdx = some r → r ≠ s.writeIdx

/-- What one call of `FrameSlot::Push` does to state `s` (claim C3, as
the code has it): the selected write cell (`s.writeIdx`) is distinct
from the read cell; the write cell's prior contents are replaced by the
new frame; the overwritten cell's old pool bit is cleared and the new
frame's pool bit is set; the drop counter is incremented exactly when
an unread (read-ready) frame existed; the previously read-ready cell
itself and its pool bit are left untouched (the bit is NOT cleared on
drop — it only disappears when that cell is later overwritten); the new
cell becomes read-ready and the event is signalled. -/
def FrameSlot.PushProp (s : FrameSlot) (t : Nat) (ts : Int) (fe : Nat) (p : Nat) : Prop :=
  (∀ r, s.readIdx = some r → r ≠ s.writeIdx) ∧
  (s.push t ts fe (some p)).slots s.writeIdx =
    { tex := some t, ts := ts, fence := fe, poolIdx := some p } ∧
  p ∈ (s.push t ts fe (some p)).inFlightMask ∧
  (∀ q, (s.slots s.writeIdx).poolIdx = some q → q ≠ p →
    q ∉ (s.push t ts fe (some p)).inFlightMask) ∧
  (s.push t ts fe (some p)).dropCount =
    (if s.readIdx.isSome then s.dropCount + 1 else s.dropCount) ∧
  (∀ r, s.readIdx = some r →
    (s.push t ts fe (some p)).slots r = s.slots r ∧
    (∀ q, (s.slots r).poolIdx = some q → q ∈ s.inFlightMask →
      (s.slots s.writeIdx).poolIdx ≠ some q →
      q ∈ (s.push t ts fe (some p)).inFlightMask)) ∧
  (s.push t ts fe (some p)).readIdx = some s.writeIdx ∧
  (s.push t ts fe (some p)).eventSet = true

/-! ## Capture pacing (src/hpp/capture.hpp, ScreenCapture::OnFrameArrived,
lines 293-311) and FPS selection (ScreenCapture::SetFPS, lines 568-573;
WebRTCServer::HandleMsg MSG_FPS_SET branch, webrtc.hpp lines 247-255). -/

/-- Rate-limiter state used by `OnFrameArrived`: the `forceSync`
first-frame flag and `nextFrameTime` (µs). -/
structure PaceState where
  forceSync : Bool
  nextFrameTime : Int
deriving DecidableEq, Repr

/-- The while loop of `OnFrameArrived` (capture.hpp:309-311):
`while (nextFrameTime <= timestamp) nextFrameTime += interval;`.
Modelled totally: when `iv = 0` (where the source would not terminate;
callers always have `1 ≤ fps ≤ 240`, so `iv ≥ 4166`) it returns `nft`
unchanged. -/
def advanceNextFrameTime (iv : Nat) (t : Int) (nft : Int) : Int :=
  if _h : 0 < iv ∧ nft ≤ t then advanceNextFrameTime iv t (nft + iv) else nft
termination_by (t + 1 - nft).toNat
decreasing_by
  omega

/-- Pacing decision of `OnFrameArrived` (capture.hpp:300-311): the
`forceSync.exchange(false)` always clears the flag; if it was set,
`nextFrameTime` is re-based to `timestamp + interval`; otherwise a
timestamp below `nextFrameTime` drops the surface; surviving frames
advance `nextFrameTime` past the timestamp.  Returns the new state and
whether the surface is kept (a frame is produced). -/
def paceStep (s : PaceState) (t : Int) (fps : Nat) : PaceState × Bool :=
  let iv : Nat := 1000000 / fps
  let nft0 := if s.forceSync then t + (iv : Int) else s.nextFrameTime
  if ¬ s.forceSync ∧ t < s.nextFrameTime then ({ forceSync := false, nextFrameTime := s.nextFrameTime }, false)
  else ({ forceSync := false, nextFrameTime := advanceNextFrameTime iv t nft0 }, true)

/-- What claim C6 says `OnFrameArrived` does with a surface arriving at
time `t` under target fps `fps` (with `iv = 1000000 / fps`): first-frame
flag set ⇒ `nextFrameTime := t + iv`, flag cleared, frame produced;
otherwise `t < nextFrameTime` ⇒ surface dropped, state unchanged except
the already-clear flag; otherwise `nextFrameTime` is advanced by
multiples of `iv` until it exceeds `t` (landing within `iv` past `t`)
and the frame is produced. -/
def PaceProp (s : PaceState) (t : Int) (fps : Nat) : Prop :=
  let iv : Nat := 1000000 / fps
  (s.forceSync = true →
    paceStep s t fps = ({ forceSync := false, nextFrameTime := t + (iv : Int) }, true)) ∧
  (s.forceSync = false → t < s.nextFrameTime →
    paceStep s t fps = ({ forceSync := false, nextFrameTime := s.nextFrameTime }, false)) ∧
  (s.forceSync = false → s.nextFrameTime ≤ t →
    (paceStep s t fps).2 = true ∧
    (paceStep s t fps).1.forceSync = false ∧
    t < (paceStep s t fps).1.nextFrameTime ∧
    (paceStep s t fps).1.nextFrameTime ≤ t + (iv : Int) ∧
    ∃ k : Nat, (paceStep s t fps).1.nextFrameTime = s.nextFrameTime + k * (iv : Int))

/-- State relevant to the MSG_FPS_SET handler of `WebRTCServer`
(webrtc.hpp lines 85-86, 394-395): the current fps `cfps` (read by
`GetCurrentFps`), the fps mode `cfm`, and the fps-received flag
`fpsr`. -/
structure FpsState where
  cfps : Nat
  cfm : Nat
  fpsr : Bool
deriving DecidableEq, Repr

/-- The MSG_FPS_ACK reply: effective fps (truncated to uint16) and
mode. -/
structure FpsAck where
  fps : Nat
  mode : Nat
deriving DecidableEq, Repr

/-- The `MSG_FPS_SET` branch of `WebRTCServer::HandleMsg`
(webrtc.hpp:247-255): requests with `1 ≤ fps ≤ 240` and `mode ≤ 2` are
applied (mode 1 substitutes the host refresh rate) and acknowledged;
anything else is ignored — no state change and no ack. -/
def handleFpsSet (s : FpsState) (fps md hostFps : Nat) : FpsState × Option FpsAck :=
  if 1 ≤ fps ∧ fps ≤ 240 ∧ md ≤ 2 then
    let ac := if md = 1 then hostFps else fps
    ({ cfps := ac, cfm := md, fpsr := true }, some { fps := ac % 65536, mode := md })
  else (s, none)

/-- Embeds `ScreenCapture::SetFPS` (capture.hpp:568-573): reject out-of-range
values, otherwise set the target fps (and request a pacing re-sync when
it changed).  State is `(targetFps, forceSync)`. -/
def ScreenCapture.setFPS (targetFps : Nat) (forceSync : Bool) (fps : Nat) :
    (Nat × Bool) × Bool :=
  if fps < 1 ∨ fps > 240 then ((targetFps, forceSync), false)
  else ((fps, if targetFps ≠ fps then true else forceSync), true)

/-! ## Audio send gating (src/hpp/webrtc.hpp, WebRTCServer::SendAudio,
lines 443-457). -/

/-- Constant `BT` — the BUFFER_THRESHOLD (webrtc.hpp:81). -/
def BT : Nat := 32768

/-- Constant `MAX_OVERFLOWS` (webrtc.hpp:95). -/
def MAX_OVERFLOWS : Nat := 10

/-- State of `WebRTCServer` observed by `SendAudio`: connection and
authentication flags, data-channel openness, the consecutive-overflow
counter, and the byte / audio-packet counters `bc` / `asc`. -/
structure AudioSendState where
  conn : Bool
  authenticated : Bool
  dcOpen : Bool
  consecutiveOverflows : Nat
  bc : Nat
  asc : Nat
deriving DecidableEq, Repr

/-- Embeds `WebRTCServer::SendAudio` (webrtc.hpp:443-457) for a payload of
`dlen` bytes, observing `bufAmt` buffered bytes on the channel, with
`sendOk` the outcome of the underlying `SafeSend`.  Returns the new
state and whether an audio packet was sent (the packet is
`AudioPktHdr` (16 bytes) + payload). -/
def sendAudio (s : AudioSendState) (dlen : Nat) (bufAmt : Nat) (sendOk : Bool) :
    AudioSendState × Bool :=
  if ¬ (s.conn ∧ s.authenticated) then (s, false)
  else if ¬ s.dcOpen ∨ dlen = 0 ∨ dlen > 4000 then (s, false)
  else if s.consecutiveOverflows ≥ MAX_OVERFLOWS / 2 then (s, false)
  else if bufAmt > BT / 2 then (s, false)
  else if sendOk then
    ({ s with bc := s.bc + (16 + dlen), asc := s.asc + 1 }, true)
  else (s, false)

/-! ## Clipboard text capture (src/hpp/clipboard.hpp, lines 8-9 and
ClipboardSync::OnClipboardChanged text path, lines 67-95). -/

/-- Constant `MAX_CLIPBOARD_TEXT_SIZE` (clipboard.hpp:9): 1 MB. -/
def MAX_CLIPBOARD_TEXT_SIZE : Nat := 1 * 1024 * 1024

/-- Magic of clipboard text messages.  clipboard.hpp:6 says the
MSG_CLIPBOARD_* constants live in common.hpp, but the common.hpp under
src/ does not contain them; the claims settled here do not depend on
the numeric value, only on its fixed 4-byte width. -/
def MSG_CLIPBOARD_TEXT : Nat := 0x434C4950

/-- Little-endian serialization of a u32 field (structs are packed
little-endian). -/
def u32le (n : Nat) : List Nat :=
  [n % 256, n / 256 % 256, n / 65536 % 256, n / 16777216 % 256]

/-- The FNV-1a hash of `ClipboardSync::HashData` (clipboard.hpp:51-59):
64-bit arithmetic modelled with an explicit `% 2 ^ 64`. -/
def fnv1a (l : List Nat) : Nat :=
  l.foldl (fun h b => ((h ^^^ b % 256) * 0x100000001b3) % 2 ^ 64)
    0xcbf29ce484222325

/-- Text path of `ClipboardSync::OnClipboardChanged`
(clipboard.hpp:67-95).  `utf8` is the UTF-8 encoding of the observed
wide text (terminating NUL excluded); `WideCharToMultiByte` is called
with length −1, so the byte count it returns — the value compared
against the 1 MB cap — is `utf8.length + 1`, including the NUL.  On a
new (un-deduplicated) text within the cap it emits
`{magic, len_u32, utf8 bytes}` and records the hash; otherwise nothing
is produced.  Returns `(new lastSentHash, optional packet)`. -/
def onClipboardTextChanged (utf8 : List Nat) (lastSentHash : Nat) :
    Nat × Option (List Nat) :=
  let len := utf8.length + 1
  if 0 < len ∧ len ≤ MAX_CLIPBOARD_TEXT_SIZE then
    let hash := fnv1a utf8
    if hash ≠ lastSentHash then
      (hash, some (u32le MSG_CLIPBOARD_TEXT ++ u32le utf8.length ++ utf8))
    else (lastSentHash, none)
  else (lastSentHash, none)

/-! ## Mouse button injection (src/hpp/input.hpp,
InputHandler::MouseButton, lines 185-205). -/

/-- State of `InputHandler` observed by `MouseButton`: the enabled flag
and the click counter. -/
structure InputState where
  enabled : Bool
  clickCount : Nat
deriving DecidableEq, Repr

/-- The injected mouse event: `dwFlags` and `mouseData` of the INPUT
structure handed to `SendInput`. -/
structure MouseEvent where
  dwFlags : Nat
  mouseData : Nat
deriving DecidableEq, Repr

/-- The static `buttonFlags[5][2]` table (input.hpp:188-194), with the
Windows MOUSEEVENTF_* values: rows are {up, down} pairs for left,
right, middle, X1, X2. -/
def buttonFlags : Fin 5 → Bool → Nat
  | 0, false => 0x0004
  | 0, true => 0x0002
  | 1, false => 0x0010
  | 1, true => 0x0008
  | 2, false => 0x0040
  | 2, true => 0x0020
  | 3, false => 0x0100
  | 3, true => 0x0080
  | 4, false => 0x0100
  | 4, true => 0x0080

/-- Embeds `InputHandler::MouseButton` (input.hpp:185-205): rejects when
disabled or `button > 4` (no event, no counter change); otherwise looks
up `buttonFlags[button][down]` — the bound `button < 5` established by
the guard — sets `mouseData` to XBUTTON1/XBUTTON2 for buttons 3/4,
injects one event and increments the click counter. -/
def mouseButton (s : InputState) (button : Nat) (down : Bool) :
    InputState × Option MouseEvent :=
  if s.enabled = false then (s, none)
  else if h : button > 4 then (s, none)
  else
    let flags := buttonFlags ⟨button, by omega⟩ down
    let mouseData := if button ≥ 3 then (if button = 3 then 1 else 2) else 0
    ({ s with clickCount := s.clickCount + 1 }, some { dwFlags := flags, mouseData := mouseData })

/-! ## Video frame send path (src/hpp/webrtc.hpp, WebRTCServer::Send,
lines 398-441)

Constants from webrtc.hpp:81: `CHK = 1400`, `HDR = sizeof(PktHdr)`
(packed: i64 + u32 + u32 + u16 + u16 + u8 = 21 bytes),
`DCK = CHK - HDR`, `BTH = BT * 2`.

The `fid` counter is a `std::atomic<uint32_t>`; it is modelled as an
unbounded `Nat` assignment counter, and the u32 actually written into
each packet header is `fid % 2 ^ 32` — observationally identical to the
wrapping C++ counter, which is only read at emission time. -/

def CHK : Nat := 1400

def HDR : Nat := 21

def DCK : Nat := CHK - HDR

def BTH : Nat := BT * 2

/-- An encoded frame handed to `Send` (encoder.hpp's `EncodedFrame`):
payload bytes, capture timestamp, encode duration, keyframe flag. -/
structure EncodedFrame where
  data : List Nat
  ts : Int
  encUs : Nat
  isKey : Bool
deriving DecidableEq, Repr

/-- One emitted chunk: the `PktHdr` fields (webrtc.hpp:10) plus the
payload bytes that follow it. -/
structure Chunk where
  ts : Int
  encUs : Nat
  fid : Nat
  idx : Nat
  total : Nat
  isKey : Bool
  payload : List Nat
deriving DecidableEq, Repr

/-- The environment one `Send` call observes: whether the ping timeout
fired, the buffered amount at entry, the buffered amount at each
16-chunk recheck, and the outcome of each chunk's `SafeSend`. -/
structure SendEnv where
  pingTimedOut : Bool
  bufAmt : Nat
  midBuf : Nat → Nat
  sendOk : Nat → Bool

/-- State of `WebRTCServer` relevant to `Send`: connection /
authentication / channel flags, the consecutive-overflow counter, the
frame-id assignment counter, and the dropped / sent / byte counters
plus the needs-keyframe flag. -/
structure VideoSendState where
  conn : Bool
  authenticated : Bool
  dcOpen : Bool
  consecutiveOverflows : Nat
  fid : Nat
  dpc : Nat
  sc : Nat
  bc : Nat
  nkey : Bool
deriving DecidableEq, Repr

/-- Embeds `WebRTCServer::ForceDisconnect` (webrtc.hpp:206-217) as it affects
the modelled fields: connection and authentication drop, the overflow
counter resets. -/
def WebRTC.forceDisconnect (s : VideoSendState) : VideoSendState :=
  { s with conn := false, authenticated := false, consecutiveOverflows := 0 }

/-- The chunk loop of `Send` (webrtc.hpp:418-434) from chunk index `i`
up to `n`: before chunk `i` (for `i > 0` at every 16th chunk) the
buffered amount is rechecked against `BTH` and the frame aborted when
exceeded; otherwise the chunk — header plus
`min DCK (data.length - i*DCK)` payload bytes — goes out through
`SafeSend`, whose failure also aborts.  Returns the emitted chunks and
whether the loop aborted early. -/
def sendChunksGo (env : SendEnv) (data : List Nat) (ts : Int) (encUs : Nat)
    (isKey : Bool) (fid32 : Nat) (n : Nat) : Nat → Nat → List Chunk × Bool
  | 0, _ => ([], false)
  | left + 1, i =>
    if i > 0 ∧ i % 16 = 0 ∧ env.midBuf i > BTH then ([], true)
    else
      let o := i * DCK
      let l := min DCK (data.length - o)
      let payload := (data.drop o).take l
      if env.sendOk i then
        let rest := sendChunksGo env data ts encUs isKey fid32 n left (i + 1)
        ({ ts := ts, encUs := encUs, fid := fid32, idx := i, total := n,
           isKey := isKey, payload := payload } :: rest.1, rest.2)
      else ([], true)

/-- The loop `for (i = 0; i < n; i++)` is driven by the number of
remaining chunks `n - i`, so the recursion is structural and the model
evaluates by reduction. -/
def sendChunks (env : SendEnv) (data : List Nat) (ts : Int) (encUs : Nat)
    (isKey : Bool) (fid32 : Nat) (n : Nat) (i : Nat) : List Chunk × Bool :=
  sendChunksGo env data ts encUs isKey fid32 n (n - i) i

/-- Embeds `WebRTCServer::Send` (webrtc.hpp:398-441): bail out when not
connected or not authenticated; force-disconnect on a closed channel or
a stale connection (ping timeout or ≥ MAX_OVERFLOWS consecutive
overflows); on entry-buffer overflow count it and drop the frame
(force-disconnecting at the limit); otherwise reset the overflow
counter, split the frame into `n = ⌈size / DCK⌉` chunks, drop it
untouched when `n > 65535` or the frame is empty, and otherwise assign
the next frame id and run the chunk loop, counting an abort and any
sent bytes. -/
def sendFrame (s : VideoSendState) (env : SendEnv) (f : EncodedFrame) :
    VideoSendState × List Chunk :=
  if ¬ (s.conn ∧ s.authenticated) then (s, [])
  else if ¬ s.dcOpen then (WebRTC.forceDisconnect s, [])
  else if env.pingTimedOut ∨ s.consecutiveOverflows ≥ MAX_OVERFLOWS then
    (WebRTC.forceDisconnect s, [])
  else if env.bufAmt > BT then
    let ov := s.consecutiveOverflows + 1
    let s1 := { s with consecutiveOverflows := ov, dpc := s.dpc + 1, nkey := true }
    if ov ≥ MAX_OVERFLOWS then (WebRTC.forceDisconnect s1, []) else (s1, [])
  else
    let s1 := { s with consecutiveOverflows := 0 }
    let sz := f.data.length
    let n := (sz + DCK - 1) / DCK
    if n > 65535 ∨ sz = 0 then (s1, [])
    else
      let s2 := { s1 with fid := s1.fid + 1 }
      let r := sendChunks env f.data f.ts f.encUs f.isKey (s1.fid % 2 ^ 32) n 0
      let bytesSent := (r.1.map (fun c => HDR + c.payload.length)).sum
      let s3 := if r.2 then
          { s2 with
              consecutiveOverflows := s2.consecutiveOverflows + 1
              dpc := s2.dpc + 1
              nkey := true }
        else s2
      let s4 := if bytesSent > 0 then
          { s3 with bc := s3.bc + bytesSent, sc := s3.sc + 1 }
        else s3
      (s4, r.1)

/-- A session: a sequence of `Send` calls with their environments,
starting from a given state; collects each call's emitted chunks. -/
def runSends (s : VideoSendState) :
    List (SendEnv × EncodedFrame) → VideoSendState × List (List Chunk)
  | [] => (s, [])
  | (e, f) :: rest =>
    let r1 := sendFrame s e f
    let r2 := runSends r1.1 rest
    (r2.1, r1.2 :: r2.2)

/-- The frame ids carried by the frames actually delivered to the peer
(calls that emitted at least one chunk). -/
def deliveredFids (out : List (List Chunk)) : List Nat :=
  out.filterMap fun cs => cs.head?.map Chunk.fid

/-- The session start: channel open, peer connected and authenticated,
all counters zero (`fid{0}`, webrtc.hpp:84). -/
def initSession : VideoSendState :=
  { conn := true, authenticated := true, dcOpen := true,
    consecutiveOverflows := 0, fid := 0, dpc := 0, sc := 0, bc := 0, nkey := true }

/-- An environment in which nothing goes wrong: no ping timeout, empty
buffers, every `SafeSend` succeeds. -/
def goodEnv : SendEnv :=
  { pingTimedOut := false, bufAmt := 0, midBuf := fun _ => 0, sendOk := fun _ => true }

/-- A minimal one-byte keyframe. -/
def oneByteFrame : EncodedFrame :=
  { data := [0], ts := 0, encUs := 0, isKey := true }

/-- A frame of 65 535 · 1379 payload bytes: its chunk count is exactly
65 535. -/
def bigFrame : EncodedFrame :=
  { data := List.replicate 90372765 0, ts := 0, encUs := 0, isKey := true }

/-! ## Authentication gating of the data channel (src/hpp/webrtc.hpp:
HandleMsg lines 219-261, HandleAuthRequest lines 139-176, SendHostInfo
178-184, SendMonitorList 186-204, Send 398-399, SendAudio 443-444,
SendClipboard 459-460).

This machine embeds the guard structure of every path that can emit a
host-originated message on the data channel; payload contents are
abstracted to message kinds, and the conditions that are external to
the gating (packet sizes, callback success, channel backpressure) to
booleans. -/

/-- The kinds of host-originated messages on the data channel. -/
inductive HostMsg where
  | authResponse (success : Bool)
  | hostInfo
  | monitorList
  | videoChunk
  | audioPacket
  | clipboardBlob
  | pong
  | fpsAck
deriving DecidableEq, Repr

/-- How `HandleAuthRequest` classifies an incoming MSG_AUTH_REQUEST:
too short or inconsistent lengths (`malformed` — rejected with a
failure response), wrong magic (`badMagic` — silently ignored,
webrtc.hpp:146), wrong credentials (`badCreds` — failure response, the
connection is torn down shortly after), or `valid`. -/
inductive AuthOutcome where
  | malformed
  | badMagic
  | badCreds
  | valid
deriving DecidableEq, Repr

/-- The events that can drive a session: incoming messages dispatched
by `HandleMsg` (`ok` abstracts the size/validity checks of each
branch), the sender entry points called by the capture/audio/clipboard
threads (`deliver` abstracts the channel being open and not
backpressured), and a disconnect from any source (failed auth teardown,
channel close, ICE failure). -/
inductive SessionOp where
  | recvAuthRequest (outcome : AuthOutcome)
  | recvPing (ok : Bool)
  | recvFpsSet (ok : Bool)
  | recvRequestKey
  | recvMonitorSet (ok : Bool)
  | recvInput
  | recvClipboardMsg
  | callSend (deliver : Bool)
  | callSendAudio (deliver : Bool)
  | callSendClipboard (deliver : Bool)
  | disconnect
deriving DecidableEq, Repr

/-- Per-session gating state: `conn` and the `authenticated` flag. -/
structure SessionState where
  conn : Bool
  authenticated : Bool
deriving DecidableEq, Repr

/-- State right after the data channel opens (webrtc.hpp:304-311):
connected, not authenticated. -/
def sessionInit : SessionState :=
  { conn := true, authenticated := false }

/-- One step of the session: the messages each handler emits, under the
handler's own guards.  `HandleMsg` treats MSG_AUTH_REQUEST before the
authentication check and ignores every other message while
unauthenticated (webrtc.hpp:223-233); `Send` / `SendAudio` /
`SendClipboard` each bail out unless `conn && authenticated`
(webrtc.hpp:399,444,460); a valid auth request sets the flag and then
sends AuthResponse{success}, host info and the monitor list, in that
order (webrtc.hpp:157-165). -/
def sessionStep (s : SessionState) : SessionOp → SessionState × List HostMsg
  | .recvAuthRequest oc =>
    match oc with
    | .malformed => (s, [.authResponse false])
    | .badMagic => (s, [])
    | .badCreds => (s, [.authResponse false])
    | .valid => ({ s with authenticated := true },
        [.authResponse true, .hostInfo, .monitorList])
  | .recvPing ok =>
    if s.authenticated ∧ ok then (s, [.pong]) else (s, [])
  | .recvFpsSet ok =>
    if s.authenticated ∧ ok then (s, [.fpsAck]) else (s, [])
  | .recvRequestKey => (s, [])
  | .recvMonitorSet ok =>
    if s.authenticated ∧ ok then (s, [.monitorList, .hostInfo]) else (s, [])
  | .recvInput => (s, [])
  | .recvClipboardMsg => (s, [])
  | .callSend deliver =>
    if s.conn ∧ s.authenticated ∧ deliver then (s, [.videoChunk]) else (s, [])
  | .callSendAudio deliver =>
    if s.conn ∧ s.authenticated ∧ deliver then (s, [.audioPacket]) else (s, [])
  | .callSendClipboard deliver =>
    if s.conn ∧ s.authenticated ∧ deliver then (s, [.clipboardBlob]) else (s, [])
  | .disconnect => ({ conn := false, authenticated := false }, [])

/-- The message trace of a whole session. -/
def runSession (s : SessionState) : List SessionOp → List HostMsg
  | [] => []
  | op :: rest =>
    (sessionStep s op).2 ++ runSession (sessionStep s op).1 rest

/-- The state at the end of a session. -/
def runSessionState (s : SessionState) (ops : List SessionOp) : SessionState :=
  ops.foldl (fun t op => (sessionStep t op).1) s

/-- A message trace is auth-gated when everything before the first
`AuthResponse{success=1}` is itself an AuthResponse: no other
host-originated message precedes a successful auth response. -/
def authGated : List HostMsg → Prop
  | [] => True
  | .authResponse true :: _ => True
  | .authResponse false :: rest => authGated rest
  | _ :: _ => False

theorem FrameSlot.mem_cellBits {s : FrameSlot} {p : Nat} :
    p ∈ s.cellBits ↔ ∃ j, (s.slots j).poolIdx = some p := by
  constructor
  · intro h
    rcases Finset.mem_biUnion.1 h with ⟨j, -, hj⟩
    refine ⟨j, ?_⟩
    revert hj
    cases hq : (s.slots j).poolIdx with
    | none => simp
    | some q => simp_all
  · rintro ⟨j, hj⟩
    exact Finset.mem_biUnion.2 ⟨j, Finset.mem_univ j, by simp [hj]⟩

theorem FrameSlot.card_cellBits_le (s : FrameSlot) : s.cellBits.card ≤ 3 := by
  have h := Finset.card_biUnion_le
    (s := (Finset.univ : Finset (Fin 3)))
    (t := fun j => match (s.slots j).poolIdx with
      | some p => ({p} : Finset Nat)
      | none => ∅)
  have h2 : (∑ j : Fin 3, (match (s.slots j).poolIdx with
        | some p => ({p} : Finset Nat)
        | none => ∅).card)
      ≤ ∑ _j : Fin 3, 1 :=
    Finset.sum_le_sum fun j _ => by cases (s.slots j).poolIdx <;> simp
  simpa using le_trans h h2

theorem FrameSlot.maskInv_push {s : FrameSlot} (h : s.MaskInv) (t : Nat) (ts : Int)
    (fe : Nat) (p : Option Nat) : (s.push t ts fe p).MaskInv := by
  intro b hb
  rw [FrameSlot.mem_cellBits]
  cases p with
  | some pnew =>
    cases hq : (s.slots s.writeIdx).poolIdx with
    | some q =>
      simp only [FrameSlot.push, hq] at hb
      rcases Finset.mem_insert.1 hb with hb1 | hb2
      · exact ⟨s.writeIdx, by simp [FrameSlot.push, hb1]⟩
      · have hbq : b ≠ q := (Finset.mem_erase.1 hb2).1
        have hbm : b ∈ s.inFlightMask := (Finset.mem_erase.1 hb2).2
        rcases FrameSlot.mem_cellBits.1 (h hbm) with ⟨j, hj⟩
        have hjne : j ≠ s.writeIdx := by
          intro he; rw [he, hq] at hj
          exact hbq (Option.some_injective _ hj).symm
        exact ⟨j, by simp [FrameSlot.push, hjne, hj]⟩
    | none =>
      simp only [FrameSlot.push, hq] at hb
      rcases Finset.mem_insert.1 hb with hb1 | hb2
      · exact ⟨s.writeIdx, by simp [FrameSlot.push, hb1]⟩
      · rcases FrameSlot.mem_cellBits.1 (h hb2) with ⟨j, hj⟩
        have hjne : j ≠ s.writeIdx := by
          intro he; rw [he, hq] at hj; cases hj
        exact ⟨j, by simp [FrameSlot.push, hjne, hj]⟩
  | none =>
    cases hq : (s.slots s.writeIdx).poolIdx with
    | some q =>
      simp only [FrameSlot.push, hq] at hb
      have hbq : b ≠ q := (Finset.mem_erase.1 hb).1
      have hbm : b ∈ s.inFlightMask := (Finset.mem_erase.1 hb).2
      rcases FrameSlot.mem_cellBits.1 (h hbm) with ⟨j, hj⟩
      have hjne : j ≠ s.writeIdx := by
        intro he; rw [he, hq] at hj
        exact hbq (Option.some_injective _ hj).symm
      exact ⟨j, by simp [FrameSlot.push, hjne, hj]⟩
    | none =>
      simp only [FrameSlot.push, hq] at hb
      rcases FrameSlot.mem_cellBits.1 (h hb) with ⟨j, hj⟩
      have hjne : j ≠ s.writeIdx := by
        intro he; rw [he, hq] at hj; cases hj
      exact ⟨j, by simp [FrameSlot.push, hjne, hj]⟩

theorem FrameSlot.maskInv_markReleased {s : FrameSlot} (h : s.MaskInv) (i : Option Nat) :
    (s.markReleased i).MaskInv := by
  cases i with
  | none => exact h
  | some p =>
    intro b hb
    exact h (Finset.mem_of_mem_erase hb)

theorem FrameSlot.maskInv_reset (s : FrameSlot) : (s.reset).MaskInv := by
  intro b hb
  simp [FrameSlot.reset] at hb

theorem FrameSlot.pop_of_event_clear {s : FrameSlot} (he : s.eventSet = false) :
    s.pop = (s, none) := by
  simp [FrameSlot.pop, he]

theorem FrameSlot.pop_of_read_none {s : FrameSlot} (he : s.eventSet = true)
    (hr : s.readIdx = none) : s.pop = ({ s with eventSet := false }, none) := by
  simp [FrameSlot.pop, he, hr]

theorem FrameSlot.pop_of_read_some {s : FrameSlot} {r : Fin 3} (he : s.eventSet = true)
    (hr : s.readIdx = some r) :
    s.pop = ({ s with
        eventSet := false
        slots := fun j => if j = r then
            { s.slots r with tex := none, poolIdx := none } else s.slots j
        readIdx := none }, some (s.slots r)) := by
  simp [FrameSlot.pop, he, hr]

theorem FrameSlot.maskInv_popRelease {s : FrameSlot} (h : s.MaskInv) :
    s.popRelease.MaskInv := by
  cases he : s.eventSet with
  | false =>
    simp only [FrameSlot.popRelease, FrameSlot.pop_of_event_clear he]
    exact h
  | true =>
    cases hr : s.readIdx with
    | none =>
      simp only [FrameSlot.popRelease, FrameSlot.pop_of_read_none he hr]
      exact h
    | some r =>
      cases hpq : (s.slots r).poolIdx with
      | some pq =>
        simp only [FrameSlot.popRelease, FrameSlot.pop_of_read_some he hr, hpq,
          FrameSlot.markReleased]
        intro b hb
        rw [FrameSlot.mem_cellBits]
        have hbq : b ≠ pq := (Finset.mem_erase.1 hb).1
        have hbm : b ∈ s.inFlightMask := (Finset.mem_erase.1 hb).2
        rcases FrameSlot.mem_cellBits.1 (h hbm) with ⟨j, hj⟩
        have hjne : j ≠ r := by
          intro hjr; rw [hjr, hpq] at hj
          exact hbq (Option.some_injective _ hj).symm
        exact ⟨j, by simp [hjne, hj]⟩
      | none =>
        simp only [FrameSlot.popRelease, FrameSlot.pop_of_read_some he hr, hpq,
          FrameSlot.markReleased]
        intro b hb
        rw [FrameSlot.mem_cellBits]
        rcases FrameSlot.mem_cellBits.1 (h hb) with ⟨j, hj⟩
        have hjne : j ≠ r := by
          intro hjr; rw [hjr, hpq] at hj; cases hj
        exact ⟨j, by simp [hjne, hj]⟩

theorem FrameSlot.maskInv_applyOpR {s : FrameSlot} (h : s.MaskInv) (op : SlotOpR) :
    (s.applyOpR op).MaskInv := by
  cases op with
  | push t ts f p => exact FrameSlot.maskInv_push h t ts f p
  | popRelease => exact FrameSlot.maskInv_popRelease h
  | markReleased i => exact FrameSlot.maskInv_markReleased h i
  | reset => exact FrameSlot.maskInv_reset _

theorem FrameSlot.maskInv_runOpsR (ops : List SlotOpR) :
    ∀ s : FrameSlot, s.MaskInv → (s.runOpsR ops).MaskInv := by
  induction ops with
  | nil => intro s h; exact h
  | cons op rest ih =>
    intro s h
    exact ih _ (FrameSlot.maskInv_applyOpR h op)

theorem fin3_ne_add_one : ∀ i : Fin 3, i ≠ i + 1 := by decide

theorem fin3_ne_add_two : ∀ i : Fin 3, i ≠ i + 1 + 1 := by decide

theorem FrameSlot.readWriteInv_push (s : FrameSlot) (t : Nat) (ts : Int) (fe : Nat)
    (p : Option Nat) : (s.push t ts fe p).ReadWriteInv := by
  intro r hr
  have hr' : s.writeIdx = r := by
    simpa [FrameSlot.push] using hr
  subst hr'
  simp only [FrameSlot.push]
  by_cases hc : some (s.writeIdx + 1) = s.readIdx
  · simp only [hc, if_pos]
    exact fin3_ne_add_two s.writeIdx
  · simp only [hc, if_neg, not_false_iff]
    exact fin3_ne_add_one s.writeIdx

theorem FrameSlot.readWriteInv_applyOp {s : FrameSlot} (h : s.ReadWriteInv)
    (op : SlotOp) : (s.applyOp op).ReadWriteInv := by
  cases op with
  | push t ts f p => exact FrameSlot.readWriteInv_push s t ts f p
  | pop =>
    cases he : s.eventSet with
    | false =>
      simp only [FrameSlot.applyOp, FrameSlot.pop_of_event_clear he]
      exact h
    | true =>
      cases hr : s.readIdx with
      | none =>
        simp only [FrameSlot.applyOp, FrameSlot.pop_of_read_none he hr]
        intro r hr'
        exact h r hr'
      | some r0 =>
        simp only [FrameSlot.applyOp, FrameSlot.pop_of_read_some he hr]
        intro r hr'
        cases hr'
  | markReleased i =>
    cases i with
    | none => exact h
    | some p => intro r hr'; exact h r hr'
  | reset =>
    intro r hr'
    cases hr'

theorem FrameSlot.readWriteInv_runOps (ops : List SlotOp) :
    ∀ s : FrameSlot, s.ReadWriteInv → (s.runOps ops).ReadWriteInv := by
  induction ops with
  | nil => intro s h; exact h
  | cons op rest ih =>
    intro s h
    exact ih _ (FrameSlot.readWriteInv_applyOp h op)

theorem FrameSlot.push_spec (s : FrameSlot) (t : Nat) (ts : Int) (fe : Nat) (p : Nat)
    (hrw : s.ReadWriteInv) : FrameSlot.PushProp s t ts fe p := by
  refine ⟨hrw, ?_, ?_, ?_, ?_, ?_, ?_, ?_⟩
  · simp [FrameSlot.push]
  · cases hq : (s.slots s.writeIdx).poolIdx with
    | some q => simp [FrameSlot.push, hq]
    | none => simp [FrameSlot.push, hq]
  · intro q hq hqp
    simp only [FrameSlot.push, hq]
    intro hmem
    rcases Finset.mem_insert.1 hmem with h1 | h2
    · exact hqp h1
    · exact (Finset.mem_erase.1 h2).1 rfl
  · simp [FrameSlot.push]
  · intro r hrd
    have hne : r ≠ s.writeIdx := hrw r hrd
    constructor
    · simp [FrameSlot.push, hne]
    · intro q hq hqm hqw
      cases hw : (s.slots s.writeIdx).poolIdx with
      | some qw =>
        have hqqw : q ≠ qw := by
          intro he
          rw [hw] at hqw
          exact hqw (by rw [he])
        simp only [FrameSlot.push, hw]
        exact Finset.mem_insert_of_mem (Finset.mem_erase.2 ⟨hqqw, hqm⟩)
      | none =>
        simp only [FrameSlot.push, hw]
        exact Finset.mem_insert_of_mem hqm
  · simp [FrameSlot.push]
  · simp [FrameSlot.push]

/-- Claim C2, counterexample: the in-flight mask is NOT bounded by 3 set
bits over arbitrary `Push`/`Pop`/`MarkReleased`/`Reset` sequences.  A
popped frame's pool bit stays set until `MarkReleased`; pushing and
popping frames with pool indices 0,1,2,3 without any release leaves all
four bits set. -/
theorem C2_counterexample :
    ¬ ((FrameSlot.init.runOps
      [.push 100 0 0 (some 0), .pop, .push 101 0 0 (some 1), .pop,
       .push 102 0 0 (some 2), .pop, .push 103 0 0 (some 3)]).inFlightMask.card ≤ 3) := by
  decide

/-- Claim C2 (amended): for every state reachable by `Push`, `Reset`,
`MarkReleased`, and `Pop` immediately followed by `MarkReleased` of the
popped frame's pool index, the in-flight mask has at most 3 bits set
(one per slot cell).  Without the immediate release, bits of popped but
unreleased frames persist and the mask can exceed 3 bits. -/
theorem C2_mask_at_most_three_bits (ops : List SlotOpR) :
    (FrameSlot.init.runOpsR ops).inFlightMask.card ≤ 3 := by
  have hinv : (FrameSlot.init.runOpsR ops).MaskInv :=
    FrameSlot.maskInv_runOpsR ops FrameSlot.init (Finset.empty_subset _)
  exact le_trans (Finset.card_le_card hinv) (FrameSlot.card_cellBits_le _)

/-- Claim C3, counterexample: pushing a frame (pool index 5), then a
second frame (pool index 6) while the first is still unread, increments
the drop counter — but does NOT clear the dropped read-ready cell's
pool bit: bit 5 is still set after the second push. -/
theorem C3_counterexample :
    ((FrameSlot.init.push 10 0 0 (some 5)).push 11 0 0 (some 6)).dropCount = 1 ∧
    5 ∈ ((FrameSlot.init.push 10 0 0 (some 5)).push 11 0 0 (some 6)).inFlightMask := by
  decide

/-- Claim C3 (amended): on every reachable `FrameSlot` state, `Push`
selects a write cell distinct from the current read cell, releases that
cell's prior contents and clears its pool bit, stores the new frame and
sets its pool bit, increments the drop counter by one exactly when a
previous read-ready cell existed — leaving that read-ready cell and its
pool bit untouched (the bit is not cleared on drop) — then marks the
new cell read-ready and signals the wait event. -/
theorem C3_push_behavior (ops : List SlotOp) (t : Nat) (ts : Int) (fe : Nat) (p : Nat) :
    FrameSlot.PushProp (FrameSlot.init.runOps ops) t ts fe p :=
  FrameSlot.push_spec _ t ts fe p
    (FrameSlot.readWriteInv_runOps ops FrameSlot.init (fun r hr => by cases hr))

theorem advanceNextFrameTime_of_lt {iv : Nat} {t nft : Int} (h : t < nft) :
    advanceNextFrameTime iv t nft = nft := by
  have h' : ¬ (0 < iv ∧ nft ≤ t) := by omega
  rw [advanceNextFrameTime, dif_neg h']

theorem advanceNextFrameTime_gt {iv : Nat} (hiv : 0 < iv) (t : Int) :
    ∀ nft : Int, t < advanceNextFrameTime iv t nft := by
  intro nft
  induction nft using advanceNextFrameTime.induct iv t with
  | case1 nft h ih =>
    rw [advanceNextFrameTime, dif_pos h]
    exact ih
  | case2 nft h =>
    rw [advanceNextFrameTime, dif_neg h]
    omega

theorem advanceNextFrameTime_le {iv : Nat} (hiv : 0 < iv) (t : Int) :
    ∀ nft : Int, nft ≤ t → advanceNextFrameTime iv t nft ≤ t + iv := by
  intro nft
  induction nft using advanceNextFrameTime.induct iv t with
  | case1 nft h ih =>
    intro _
    rw [advanceNextFrameTime, dif_pos h]
    by_cases h2 : nft + iv ≤ t
    · exact ih h2
    · rw [advanceNextFrameTime_of_lt (by omega)]
      omega
  | case2 nft h =>
    intro hle
    exact absurd ⟨hiv, hle⟩ h

theorem advanceNextFrameTime_multiple {iv : Nat} (t : Int) :
    ∀ nft : Int, ∃ k : Nat, advanceNextFrameTime iv t nft = nft + k * (iv : Int) := by
  intro nft
  induction nft using advanceNextFrameTime.induct iv t with
  | case1 nft h ih =>
    rcases ih with ⟨k, hk⟩
    refine ⟨k + 1, ?_⟩
    rw [advanceNextFrameTime, dif_pos h, hk]
    push_cast
    ring
  | case2 nft h =>
    refine ⟨0, ?_⟩
    rw [advanceNextFrameTime, dif_neg h]
    simp

theorem paceStep_forceSync {s : PaceState} (hf : s.forceSync = true) {t : Int}
    {fps : Nat} :
    paceStep s t fps =
      (⟨false, advanceNextFrameTime (1000000 / fps) t (t + ((1000000 / fps : Nat) : Int))⟩,
        true) := by
  simp [paceStep, hf]

theorem paceStep_drop {s : PaceState} (hf : s.forceSync = false) {t : Int}
    (hlt : t < s.nextFrameTime) (fps : Nat) :
    paceStep s t fps = (⟨false, s.nextFrameTime⟩, false) := by
  simp [paceStep, hf, hlt]

theorem paceStep_keep {s : PaceState} (hf : s.forceSync = false) {t : Int}
    (hle : s.nextFrameTime ≤ t) (fps : Nat) :
    paceStep s t fps =
      (⟨false, advanceNextFrameTime (1000000 / fps) t s.nextFrameTime⟩, true) := by
  have hnotlt : ¬ t < s.nextFrameTime := not_lt.2 hle
  simp [paceStep, hf, hnotlt]

/-- Claim C6: on each capture surface-arrival at time `t` with interval
`iv = 1000000 / target-fps`: if the first-frame flag is set,
next-frame-time becomes `t + iv`, the flag is cleared and the frame is
produced; otherwise if `t <` next-frame-time the surface is dropped;
otherwise next-frame-time is advanced by `iv` until it exceeds `t` and
the frame is produced.  (`fps` is positive and small enough that
`iv > 0`; the source guarantees `1 ≤ fps ≤ 240`.) -/
theorem C6_pacing (s : PaceState) (t : Int) (fps : Nat) (h1 : 0 < fps)
    (h2 : fps ≤ 1000000) : PaceProp s t fps := by
  have hiv : 0 < 1000000 / fps := Nat.div_pos h2 h1
  simp only [PaceProp]
  refine ⟨?_, ?_, ?_⟩
  · intro hf
    rw [paceStep_forceSync hf,
      advanceNextFrameTime_of_lt (by omega : t < t + ((1000000 / fps : Nat) : Int))]
  · intro hf hlt
    exact paceStep_drop hf hlt fps
  · intro hf hle
    rw [paceStep_keep hf hle fps]
    exact ⟨rfl, rfl, advanceNextFrameTime_gt hiv t _,
      advanceNextFrameTime_le hiv t _ hle,
      advanceNextFrameTime_multiple t _⟩

/-- Witness for C6 at a concrete input: fps 60 and a first-frame state. -/
theorem C6_pacing_witness :
    (0 < 60 ∧ 60 ≤ 1000000) ∧
    PaceProp { forceSync := true, nextFrameTime := 0 } 5 60 :=
  ⟨by decide, C6_pacing { forceSync := true, nextFrameTime := 0 } 5 60
    (by decide) (by decide)⟩

/-- Claim C7, counterexample: an out-of-range MSG_FPS_SET (fps = 300,
previous fps 60, host refresh 120) is ignored entirely — `GetCurrentFps`
still returns the previous value 60, not the clamped 240, and no
MSG_FPS_ACK is produced. -/
theorem C7_counterexample :
    (handleFpsSet { cfps := 60, cfm := 0, fpsr := false } 300 0 120).1.cfps = 60 ∧
    (handleFpsSet { cfps := 60, cfm := 0, fpsr := false } 300 0 120).2 = none ∧
    (handleFpsSet { cfps := 60, cfm := 0, fpsr := false } 300 0 120).1.cfps ≠ 240 := by
  decide

/-- Claim C7 (amended): a MSG_FPS_SET whose fps lies in [1,240] and
whose mode is ≤ 2 sets `GetCurrentFps` to exactly that fps (with the
host refresh rate substituted when mode = 1) and is acknowledged with
the effective value; an out-of-range fps (such as 0 or 300) or mode > 2
leaves the state unchanged — `GetCurrentFps` keeps its previous value —
and no ack is sent.  `ScreenCapture::SetFPS` likewise applies an
in-range fps verbatim; no clamping happens anywhere. -/
theorem C7_fps_set (s : FpsState) (fps md hostFps : Nat) :
    ((1 ≤ fps ∧ fps ≤ 240 ∧ md ≤ 2) →
      handleFpsSet s fps md hostFps =
        ({ cfps := if md = 1 then hostFps else fps, cfm := md, fpsr := true },
         some { fps := (if md = 1 then hostFps else fps) % 65536, mode := md })) ∧
    (¬ (1 ≤ fps ∧ fps ≤ 240 ∧ md ≤ 2) →
      handleFpsSet s fps md hostFps = (s, none)) ∧
    (∀ targetFps : Nat, ∀ forceSync : Bool, 1 ≤ fps → fps ≤ 240 →
      ScreenCapture.setFPS targetFps forceSync fps =
        ((fps, if targetFps ≠ fps then true else forceSync), true)) := by
  refine ⟨?_, ?_, ?_⟩
  · intro h
    simp [handleFpsSet, h]
  · intro h
    simp [handleFpsSet, h]
  · intro targetFps forceSync h1 h2
    have hcond : ¬ (fps < 1 ∨ fps > 240) := by omega
    simp [ScreenCapture.setFPS, hcond]
    omega

/-- Witness for C7 at a concrete input: fps 100, mode 1, host refresh
144 is applied as 144 and acked. -/
theorem C7_fps_set_witness :
    (1 ≤ 100 ∧ 100 ≤ 240 ∧ 1 ≤ 2) ∧
    handleFpsSet { cfps := 60, cfm := 0, fpsr := false } 100 1 144 =
      ({ cfps := 144, cfm := 1, fpsr := true }, some { fps := 144, mode := 1 }) :=
  ⟨by decide, by
    have h := (C7_fps_set { cfps := 60, cfm := 0, fpsr := false } 100 1 144).1 (by decide)
    simpa using h⟩

/-- Claim C8, counterexample: with a healthy session (overflow counter
0) and exactly `BUFFER_THRESHOLD/2 = 16384` buffered bytes, the audio
packet IS sent, although 16384 is not strictly below 16 KiB — the
code's guard is `bufferedAmount() > BT/2`, so the boundary value
passes. -/
theorem C8_counterexample :
    (sendAudio ⟨true, true, true, 0, 0, 0⟩ 100 16384 true).2 = true ∧
    ¬ (16384 < BT / 2) := by
  decide

/-- Claim C8 (amended): an audio packet is sent exactly when the
channel's buffered byte count is at most BUFFER_THRESHOLD/2 (16 KiB),
the consecutive-overflow counter is below MAX_OVERFLOWS/2 = 5, and the
underlying send succeeds; otherwise the packet is silently dropped with
no change to any counter or connection state.  A successful send only
bumps the byte and audio-packet counters. -/
theorem C8_audio_gating (s : AudioSendState) (dlen bufAmt : Nat) (sendOk : Bool)
    (hconn : s.conn = true) (hauth : s.authenticated = true) (hopen : s.dcOpen = true)
    (hd1 : 0 < dlen) (hd2 : dlen ≤ 4000) :
    ((sendAudio s dlen bufAmt sendOk).2 = true ↔
      bufAmt ≤ BT / 2 ∧ s.consecutiveOverflows < MAX_OVERFLOWS / 2 ∧ sendOk = true) ∧
    ((sendAudio s dlen bufAmt sendOk).2 = false →
      (sendAudio s dlen bufAmt sendOk).1 = s) ∧
    ((sendAudio s dlen bufAmt sendOk).2 = true →
      (sendAudio s dlen bufAmt sendOk).1 =
        { s with bc := s.bc + (16 + dlen), asc := s.asc + 1 }) := by
  have hne : ¬ (dlen = 0) := by omega
  have hgt : ¬ (dlen > 4000) := by omega
  by_cases hov : s.consecutiveOverflows ≥ MAX_OVERFLOWS / 2
  · refine ⟨?_, ?_, ?_⟩ <;>
      simp [sendAudio, hconn, hauth, hopen, hne, hgt, hov]
  · by_cases hbuf : bufAmt > BT / 2
    · refine ⟨?_, ?_, ?_⟩ <;>
        simp [sendAudio, hconn, hauth, hopen, hne, hgt, hov, hbuf]
    · cases sendOk with
      | true =>
        refine ⟨?_, ?_, ?_⟩ <;>
          (simp [sendAudio, hconn, hauth, hopen, hne, hgt, hov, hbuf]; try omega)
      | false =>
        refine ⟨?_, ?_, ?_⟩ <;>
          simp [sendAudio, hconn, hauth, hopen, hne, hgt, hov, hbuf]

/-- Witness for C8 at a concrete input: a 100-byte packet with 1000
buffered bytes and no overflows goes out. -/
theorem C8_audio_gating_witness :
    ((true = true) ∧ (true = true) ∧ (true = true) ∧ 0 < 100 ∧ 100 ≤ 4000) ∧
    (((sendAudio ⟨true, true, true, 0, 0, 0⟩ 100 1000 true).2 = true ↔
      1000 ≤ BT / 2 ∧ 0 < MAX_OVERFLOWS / 2 ∧ true = true) ∧
     ((sendAudio ⟨true, true, true, 0, 0, 0⟩ 100 1000 true).2 = false →
      (sendAudio ⟨true, true, true, 0, 0, 0⟩ 100 1000 true).1 =
        ⟨true, true, true, 0, 0, 0⟩) ∧
     ((sendAudio ⟨true, true, true, 0, 0, 0⟩ 100 1000 true).2 = true →
      (sendAudio ⟨true, true, true, 0, 0, 0⟩ 100 1000 true).1 =
        ⟨true, true, true, 0, 0 + (16 + 100), 0 + 1⟩)) :=
  ⟨by decide, C8_audio_gating ⟨true, true, true, 0, 0, 0⟩ 100 1000 true
    rfl rfl rfl (by decide) (by decide)⟩

/-- Claim C9, counterexample: a clipboard text whose UTF-8 encoding is
exactly 1 MB (1 048 576 bytes) is NOT transmitted — the byte count
compared against the cap comes from `WideCharToMultiByte(..., -1, ...)`
and so includes the terminating NUL, making it 1 048 577 > 1 048 576:
no message is produced. -/
theorem C9_counterexample :
    (onClipboardTextChanged (List.replicate (1024 * 1024) 65) 0).2 = none := by
  have hlen : (List.replicate (1024 * 1024) 65).length = 1024 * 1024 :=
    List.length_replicate _ _
  simp only [onClipboardTextChanged, hlen, MAX_CLIPBOARD_TEXT_SIZE]
  norm_num

/-- Claim C9 (amended): a clipboard text whose UTF-8 encoding is at
most 1 048 575 bytes (one below the 1 MB cap: the converted length is
counted with its terminating NUL) and which differs from the last sent
text is transmitted as a `{magic, len_u32, utf8}` MSG_CLIPBOARD_TEXT
payload and its hash recorded; any text of 1 048 576 bytes or more —
including one exactly at 1 MB — produces no message. -/
theorem C9_clipboard_cap (utf8 : List Nat) (lastSentHash : Nat)
    (hlen : utf8.length ≤ MAX_CLIPBOARD_TEXT_SIZE - 1)
    (hhash : fnv1a utf8 ≠ lastSentHash) :
    (onClipboardTextChanged utf8 lastSentHash).2 =
      some (u32le MSG_CLIPBOARD_TEXT ++ u32le utf8.length ++ utf8) ∧
    (onClipboardTextChanged utf8 lastSentHash).1 = fnv1a utf8 ∧
    (∀ big : List Nat, ∀ h' : Nat, MAX_CLIPBOARD_TEXT_SIZE ≤ big.length →
      (onClipboardTextChanged big h').2 = none) := by
  have hcond : 0 < utf8.length + 1 ∧ utf8.length + 1 ≤ MAX_CLIPBOARD_TEXT_SIZE := by
    simp only [MAX_CLIPBOARD_TEXT_SIZE] at hlen ⊢
    omega
  refine ⟨?_, ?_, ?_⟩
  · simp [onClipboardTextChanged, hcond, hhash]
  · simp [onClipboardTextChanged, hcond, hhash]
  · intro big h' hbig
    have hc2 : ¬ (big.length + 1 ≤ MAX_CLIPBOARD_TEXT_SIZE) := by omega
    simp [onClipboardTextChanged, hc2]

/-- Witness for C9 at a concrete input: a two-byte text is packaged. -/
theorem C9_clipboard_cap_witness :
    (([72, 105] : List Nat).length ≤ MAX_CLIPBOARD_TEXT_SIZE - 1 ∧
      fnv1a [72, 105] ≠ 0) ∧
    (onClipboardTextChanged [72, 105] 0).2 =
      some (u32le MSG_CLIPBOARD_TEXT ++ u32le ([72, 105] : List Nat).length ++ [72, 105]) :=
  ⟨⟨by decide, by decide⟩, (C9_clipboard_cap [72, 105] 0 (by decide) (by decide)).1⟩

/-- Claim C10: `InputHandler::MouseButton` injects nothing and changes
no counter for any button value above 4, and for buttons 0..4 (with
input enabled) performs an in-bounds `buttonFlags[button][down]` lookup
— the bound `button < 5` is part of the statement — injects exactly one
event and increments the click counter; the operation is total over all
8-bit button values. -/
theorem C10_mouse_button (s : InputState) (button : Nat) (down : Bool)
    (hb : button < 256) :
    (button > 4 → mouseButton s button down = (s, none)) ∧
    (∀ h5 : button < 5, s.enabled = true →
      mouseButton s button down =
        ({ s with clickCount := s.clickCount + 1 },
          some { dwFlags := buttonFlags ⟨button, h5⟩ down,
                 mouseData := if button ≥ 3 then (if button = 3 then 1 else 2) else 0 })) := by
  constructor
  · intro hgt
    cases he : s.enabled <;> simp [mouseButton, he, hgt]
  · intro h5 he
    have hgt : ¬ (button > 4) := by omega
    simp [mouseButton, he, hgt]

/-- Witness for C10 at a concrete input: button 3 (X1) pressed while
enabled. -/
theorem C10_mouse_button_witness :
    (3 < 256) ∧
    ((3 > 4 → mouseButton ⟨true, 7⟩ 3 true = (⟨true, 7⟩, none)) ∧
     (∀ h5 : 3 < 5, (⟨true, 7⟩ : InputState).enabled = true →
       mouseButton ⟨true, 7⟩ 3 true =
         (⟨true, 7 + 1⟩,
           some { dwFlags := buttonFlags ⟨3, h5⟩ true,
                  mouseData := if 3 ≥ 3 then (if 3 = 3 then 1 else 2) else 0 }))) :=
  ⟨by decide, C10_mouse_button ⟨true, 7⟩ 3 true (by decide)⟩

theorem sendChunksGo_spec (env : SendEnv) (data : List Nat) (ts : Int) (encUs : Nat)
    (isKey : Bool) (fid32 : Nat) (n : Nat) :
    ∀ left i,
      List.map Chunk.idx (sendChunksGo env data ts encUs isKey fid32 n left i).1 =
        List.range' i (sendChunksGo env data ts encUs isKey fid32 n left i).1.length ∧
      (sendChunksGo env data ts encUs isKey fid32 n left i).1.length ≤ left ∧
      ∀ c ∈ (sendChunksGo env data ts encUs isKey fid32 n left i).1,
        c.total = n ∧ c.fid = fid32 ∧ c.payload.length ≤ DCK ∧
        c.ts = ts ∧ c.encUs = encUs ∧ c.isKey = isKey := by
  intro left
  induction left with
  | zero =>
    intro i
    simp [sendChunksGo]
  | succ left ih =>
    intro i
    rw [sendChunksGo]
    by_cases hmid : i > 0 ∧ i % 16 = 0 ∧ env.midBuf i > BTH
    · simp [hmid]
    · rw [if_neg hmid]
      by_cases hok : env.sendOk i
      · simp only [hok, if_true]
        rcases ih (i + 1) with ⟨h1, h2, h3⟩
        refine ⟨?_, ?_, ?_⟩
        · simp only [List.map_cons, List.length_cons, h1, List.range'_succ]
        · simp only [List.length_cons]
          omega
        · intro c hc
          rcases List.mem_cons.1 hc with hc1 | hc2
          · subst hc1
            refine ⟨rfl, rfl, ?_, rfl, rfl, rfl⟩
            simp [min_le_left, List.length_take]
          · exact h3 c hc2
      · simp [hok]

theorem sendChunks_spec (env : SendEnv) (data : List Nat) (ts : Int) (encUs : Nat)
    (isKey : Bool) (fid32 : Nat) (n : Nat) :
    ∀ i, List.map Chunk.idx (sendChunks env data ts encUs isKey fid32 n i).1 =
        List.range' i (sendChunks env data ts encUs isKey fid32 n i).1.length ∧
      (sendChunks env data ts encUs isKey fid32 n i).1.length ≤ n - i ∧
      ∀ c ∈ (sendChunks env data ts encUs isKey fid32 n i).1,
        c.total = n ∧ c.fid = fid32 ∧ c.payload.length ≤ DCK ∧
        c.ts = ts ∧ c.encUs = encUs ∧ c.isKey = isKey := by
  intro i
  exact sendChunksGo_spec env data ts encUs isKey fid32 n (n - i) i

theorem sendChunksGo_complete (env : SendEnv) (data : List Nat) (ts : Int)
    (encUs : Nat) (isKey : Bool) (fid32 : Nat) (n : Nat)
    (hok : ∀ j, env.sendOk j = true) (hmid : ∀ j, env.midBuf j ≤ BTH) :
    ∀ left i, (sendChunksGo env data ts encUs isKey fid32 n left i).1.length = left ∧
      (sendChunksGo env data ts encUs isKey fid32 n left i).2 = false := by
  intro left
  induction left with
  | zero =>
    intro i
    simp [sendChunksGo]
  | succ left ih =>
    intro i
    rw [sendChunksGo]
    have hmid' : ¬ (i > 0 ∧ i % 16 = 0 ∧ env.midBuf i > BTH) := by
      intro hc
      exact absurd (hmid i) (by omega)
    rw [if_neg hmid']
    simp only [hok i, if_true]
    rcases ih (i + 1) with ⟨h1, h2⟩
    refine ⟨?_, h2⟩
    simp only [List.length_cons, h1]

theorem sendChunks_complete (env : SendEnv) (data : List Nat) (ts : Int) (encUs : Nat)
    (isKey : Bool) (fid32 : Nat) (n : Nat)
    (hok : ∀ j, env.sendOk j = true) (hmid : ∀ j, env.midBuf j ≤ BTH) :
    ∀ i, (sendChunks env data ts encUs isKey fid32 n i).1.length = n - i ∧
      (sendChunks env data ts encUs isKey fid32 n i).2 = false := by
  intro i
  exact sendChunksGo_complete env data ts encUs isKey fid32 n hok hmid (n - i) i

theorem sendFrame_fid_le (s : VideoSendState) (env : SendEnv) (f : EncodedFrame) :
    s.fid ≤ (sendFrame s env f).1.fid := by
  simp only [sendFrame, WebRTC.forceDisconnect]
  split_ifs <;> simp

theorem sendFrame_deliver_snd {s : VideoSendState} {env : SendEnv} {f : EncodedFrame}
    (hc : s.conn = true) (ha : s.authenticated = true) (ho : s.dcOpen = true)
    (hping : env.pingTimedOut = false) (hcov : s.consecutiveOverflows < MAX_OVERFLOWS)
    (hbuf : ¬ env.bufAmt > BT)
    (hn : ¬ ((f.data.length + DCK - 1) / DCK > 65535 ∨ f.data.length = 0)) :
    (sendFrame s env f).2 =
      (sendChunks env f.data f.ts f.encUs f.isKey (s.fid % 2 ^ 32)
        ((f.data.length + DCK - 1) / DCK) 0).1 := by
  have hcov' : ¬ s.consecutiveOverflows ≥ MAX_OVERFLOWS := by omega
  push_neg at hn
  have hlt : ¬ 65535 < (f.data.length + DCK - 1) / DCK := Nat.not_lt.2 hn.1
  have hd : f.data ≠ [] := by
    intro he
    exact hn.2 (by simp [he])
  simp [sendFrame, hc, ha, ho, hping, hcov', hbuf, hlt, hd]

theorem sendFrame_deliver_fid {s : VideoSendState} {env : SendEnv} {f : EncodedFrame}
    (hc : s.conn = true) (ha : s.authenticated = true) (ho : s.dcOpen = true)
    (hping : env.pingTimedOut = false) (hcov : s.consecutiveOverflows < MAX_OVERFLOWS)
    (hbuf : ¬ env.bufAmt > BT)
    (hn : ¬ ((f.data.length + DCK - 1) / DCK > 65535 ∨ f.data.length = 0)) :
    (sendFrame s env f).1.fid = s.fid + 1 := by
  have hcov' : ¬ s.consecutiveOverflows ≥ MAX_OVERFLOWS := by omega
  push_neg at hn
  have hlt : ¬ 65535 < (f.data.length + DCK - 1) / DCK := Nat.not_lt.2 hn.1
  have hd : f.data ≠ [] := by
    intro he
    exact hn.2 (by simp [he])
  simp only [sendFrame, hc, ha, ho, hping, hcov', hbuf, hlt, hd]
  split_ifs <;> simp_all [WebRTC.forceDisconnect]

theorem sendFrame_nonempty {s : VideoSendState} {env : SendEnv} {f : EncodedFrame}
    (hne : (sendFrame s env f).2 ≠ []) :
    (sendFrame s env f).1.fid = s.fid + 1 ∧
    ∀ c ∈ (sendFrame s env f).2, c.fid = s.fid % 2 ^ 32 := by
  by_cases h1 : ¬ (s.conn ∧ s.authenticated)
  · exact absurd (by simp [sendFrame, h1]) hne
  by_cases h2 : ¬ s.dcOpen
  · exact absurd (by simp [sendFrame, h1, h2]) hne
  by_cases h3 : env.pingTimedOut ∨ s.consecutiveOverflows ≥ MAX_OVERFLOWS
  · exact absurd (by simp [sendFrame, h1, h2, h3]) hne
  by_cases h4 : env.bufAmt > BT
  · by_cases h5 : s.consecutiveOverflows + 1 ≥ MAX_OVERFLOWS
    · exact absurd (by simp [sendFrame, h1, h2, h3, h4, h5]) hne
    · exact absurd (by simp [sendFrame, h1, h2, h3, h4, h5]) hne
  by_cases h6 : (f.data.length + DCK - 1) / DCK > 65535 ∨ f.data.length = 0
  · have h6' : 65535 < (f.data.length + DCK - 1) / DCK ∨ f.data = [] := by
      rcases h6 with h | h
      · exact Or.inl h
      · exact Or.inr (List.length_eq_zero.1 h)
    exact absurd (by simp [sendFrame, h1, h2, h3, h4, h6']) hne
  push_neg at h1
  have hc : s.conn = true := h1.1
  have ha : s.authenticated = true := h1.2
  have ho : s.dcOpen = true := by
    simpa using h2
  rw [not_or] at h3
  have hping : env.pingTimedOut = false := by
    simpa using h3.1
  have hcov : s.consecutiveOverflows < MAX_OVERFLOWS := by
    have := h3.2
    omega
  refine ⟨sendFrame_deliver_fid hc ha ho hping hcov h4 h6, ?_⟩
  intro c hcmem
  rw [sendFrame_deliver_snd hc ha ho hping hcov h4 h6] at hcmem
  exact ((sendChunks_spec env f.data f.ts f.encUs f.isKey (s.fid % 2 ^ 32)
    ((f.data.length + DCK - 1) / DCK) 0).2.2 c hcmem).2.1

theorem sendFrame_snd_cases (s : VideoSendState) (env : SendEnv) (f : EncodedFrame) :
    (sendFrame s env f).2 = [] ∨
    (sendFrame s env f).2 =
      (sendChunks env f.data f.ts f.encUs f.isKey (s.fid % 2 ^ 32)
        ((f.data.length + DCK - 1) / DCK) 0).1 := by
  simp only [sendFrame]
  split_ifs <;> simp

theorem sendFrame_chunk_structure (s : VideoSendState) (env : SendEnv) (f : EncodedFrame) :
    List.map Chunk.idx (sendFrame s env f).2 = List.range (sendFrame s env f).2.length ∧
    ∀ c ∈ (sendFrame s env f).2, (sendFrame s env f).2.length ≤ c.total ∧
      c.payload.length ≤ DCK := by
  rcases sendFrame_snd_cases s env f with h | h
  · rw [h]
    simp
  · rw [h]
    rcases sendChunks_spec env f.data f.ts f.encUs f.isKey (s.fid % 2 ^ 32)
      ((f.data.length + DCK - 1) / DCK) 0 with ⟨h1, h2, h3⟩
    refine ⟨?_, ?_⟩
    · rw [h1]
      rw [List.range_eq_range']
    · intro c hcmem
      rcases h3 c hcmem with ⟨htot, -, hpay, -⟩
      refine ⟨?_, hpay⟩
      rw [htot]
      omega

theorem runSends_fid_le (ops : List (SendEnv × EncodedFrame)) :
    ∀ s : VideoSendState, s.fid ≤ (runSends s ops).1.fid := by
  induction ops with
  | nil =>
    intro s
    exact le_rfl
  | cons ef rest ih =>
    intro s
    obtain ⟨e, f⟩ := ef
    simp only [runSends]
    exact le_trans (sendFrame_fid_le s e f) (ih _)

theorem runSends_fids (ops : List (SendEnv × EncodedFrame)) :
    ∀ s : VideoSendState, ∃ counters : List Nat,
      deliveredFids (runSends s ops).2 = counters.map (· % 2 ^ 32) ∧
      List.Pairwise (· < ·) counters ∧
      ∀ c ∈ counters, s.fid ≤ c ∧ c < (runSends s ops).1.fid := by
  induction ops with
  | nil =>
    intro s
    exact ⟨[], by simp [deliveredFids, runSends], by simp, by simp⟩
  | cons ef rest ih =>
    intro s
    obtain ⟨e, f⟩ := ef
    rcases ih (sendFrame s e f).1 with ⟨counters, hmap, hpair, hbound⟩
    cases hr : (sendFrame s e f).2 with
    | nil =>
      refine ⟨counters, ?_, hpair, ?_⟩
      · simp only [runSends, deliveredFids, List.filterMap_cons, hr]
        simpa [deliveredFids] using hmap
      · intro c hcmem
        rcases hbound c hcmem with ⟨hlo, hhi⟩
        exact ⟨le_trans (sendFrame_fid_le s e f) hlo, by simpa [runSends] using hhi⟩
    | cons c0 tail =>
      have hne : (sendFrame s e f).2 ≠ [] := by
        rw [hr]
        simp
      rcases sendFrame_nonempty hne with ⟨hfid, hall⟩
      have hc0 : c0.fid = s.fid % 2 ^ 32 := hall c0 (by rw [hr]; simp)
      refine ⟨s.fid :: counters, ?_, ?_, ?_⟩
      · simp only [runSends, deliveredFids, List.filterMap_cons, hr]
        simp only [deliveredFids] at hmap
        simp [hmap, hc0]
      · refine List.pairwise_cons.2 ⟨?_, hpair⟩
        intro c hcmem
        have := (hbound c hcmem).1
        omega
      · intro c hcmem
        rcases List.mem_cons.1 hcmem with hc1 | hc2
        · subst hc1
          refine ⟨le_rfl, ?_⟩
          have h1 : (sendFrame s e f).1.fid ≤ (runSends (sendFrame s e f).1 rest).1.fid :=
            runSends_fid_le rest _
          have h2 : (runSends s ((e, f) :: rest)).1.fid =
              (runSends (sendFrame s e f).1 rest).1.fid := by
            simp [runSends]
          omega
        · rcases hbound c hc2 with ⟨hlo, hhi⟩
          refine ⟨le_trans (sendFrame_fid_le s e f) hlo, by simpa [runSends] using hhi⟩

theorem runSends_chunk_structure (ops : List (SendEnv × EncodedFrame)) :
    ∀ s : VideoSendState, ∀ cs ∈ (runSends s ops).2,
      List.map Chunk.idx cs = List.range cs.length ∧
      ∀ c ∈ cs, cs.length ≤ c.total := by
  induction ops with
  | nil =>
    intro s cs h
    simp [runSends] at h
  | cons ef rest ih =>
    intro s cs h
    obtain ⟨e, f⟩ := ef
    simp only [runSends, List.mem_cons] at h
    rcases h with h1 | h2
    · subst h1
      rcases sendFrame_chunk_structure s e f with ⟨ha, hb⟩
      exact ⟨ha, fun c hcm => (hb c hcm).1⟩
    · exact ih _ cs h2

theorem sendFrame_good (s : VideoSendState) (hc : s.conn = true)
    (ha : s.authenticated = true) (ho : s.dcOpen = true)
    (hcov : s.consecutiveOverflows < MAX_OVERFLOWS) :
    sendFrame s goodEnv oneByteFrame =
      ({ s with
          consecutiveOverflows := 0
          fid := s.fid + 1
          sc := s.sc + 1
          bc := s.bc + 22 },
       [{ ts := 0
          encUs := 0
          fid := s.fid % 2 ^ 32
          idx := 0
          total := 1
          isKey := true
          payload := [0] }]) := by
  have hcov' : ¬ s.consecutiveOverflows ≥ MAX_OVERFLOWS := by omega
  rw [sendFrame]
  simp [goodEnv, oneByteFrame, hc, ha, ho, hcov', sendChunks, sendChunksGo,
    DCK, CHK, HDR, BTH, BT]

theorem runSends_good (k : Nat) :
    ∀ s : VideoSendState, s.conn = true → s.authenticated = true → s.dcOpen = true →
      s.consecutiveOverflows < MAX_OVERFLOWS →
      deliveredFids (runSends s (List.replicate k (goodEnv, oneByteFrame))).2 =
        List.map (fun j => (s.fid + j) % 2 ^ 32) (List.range k) := by
  induction k with
  | zero =>
    intro s _ _ _ _
    simp [runSends, deliveredFids]
  | succ k ih =>
    intro s hc ha ho hcov
    rw [List.replicate_succ]
    have hstep := sendFrame_good s hc ha ho hcov
    simp only [runSends, hstep, deliveredFids, List.filterMap_cons, List.head?_cons,
      Option.map_some]
    have ih' := ih ({ s with
        consecutiveOverflows := 0
        fid := s.fid + 1
        sc := s.sc + 1
        bc := s.bc + 22 }) hc ha ho (by simp [MAX_OVERFLOWS])
    simp only [deliveredFids] at ih'
    rw [ih']
    rw [List.range_succ_eq_map, List.map_cons, List.map_map]
    simp only [Nat.add_zero]
    refine congrArg (fun l => (s.fid % 2 ^ 32) :: l) ?_
    apply List.map_congr_left
    intro j _
    simp only [Function.comp]
    congr 1
    omega

/-- Claim C4, counterexample: the frame ids carried on the wire are
32-bit and wrap.  In a session of `2^32 + 1` delivered frames the first
and the `2^32`-th frame both carry id 0, so the carried frame_id values
do not strictly increase over an arbitrary-length session. -/
theorem C4_counterexample :
    ¬ List.Pairwise (· < ·)
      (deliveredFids (runSends initSession
        (List.replicate (2 ^ 32 + 1) (goodEnv, oneByteFrame))).2) := by
  intro hp
  rw [runSends_good (2 ^ 32 + 1) initSession rfl rfl rfl
    (by norm_num [initSession, MAX_OVERFLOWS])] at hp
  rw [List.pairwise_iff_getElem] at hp
  have h := hp 0 (2 ^ 32) (by simp) (by simp) (by norm_num)
  simp only [List.getElem_map, List.getElem_range, initSession] at h
  norm_num at h

/-- Claim C4 (amended): over a session in which fewer than `2^32` frame
ids are assigned (the id is a 32-bit counter and wraps beyond that),
the frame_id values carried by frames delivered to the peer strictly
increase; and in every call the chunk_index values of the emitted
chunks are exactly 0..k−1 in increasing order for some k ≤ total_chunks
(a mid-frame abort truncates the suffix but never reorders or repeats
an index). -/
theorem C4_frame_ids_and_chunk_order (ops : List (SendEnv × EncodedFrame))
    (hbound : (runSends initSession ops).1.fid ≤ 2 ^ 32) :
    List.Pairwise (· < ·) (deliveredFids (runSends initSession ops).2) ∧
    ∀ cs ∈ (runSends initSession ops).2,
      List.map Chunk.idx cs = List.range cs.length ∧
      ∀ c ∈ cs, cs.length ≤ c.total := by
  refine ⟨?_, runSends_chunk_structure ops initSession⟩
  rcases runSends_fids ops initSession with ⟨counters, hmap, hpair, hbounds⟩
  rw [hmap, List.pairwise_map]
  refine hpair.imp_of_mem ?_
  intro a b hma hmb hab
  have ha2 := (hbounds a hma).2
  have hb2 := (hbounds b hmb).2
  have ha' : a % 2 ^ 32 = a := Nat.mod_eq_of_lt (by omega)
  have hb' : b % 2 ^ 32 = b := Nat.mod_eq_of_lt (by omega)
  rw [ha', hb']
  exact hab

/-- Witness for C4 at a concrete input: a session of two delivered
one-byte frames. -/
theorem C4_frame_ids_witness :
    ((runSends initSession
        [(goodEnv, oneByteFrame), (goodEnv, oneByteFrame)]).1.fid ≤ 2 ^ 32) ∧
    (List.Pairwise (· < ·) (deliveredFids (runSends initSession
        [(goodEnv, oneByteFrame), (goodEnv, oneByteFrame)]).2) ∧
     ∀ cs ∈ (runSends initSession
        [(goodEnv, oneByteFrame), (goodEnv, oneByteFrame)]).2,
       List.map Chunk.idx cs = List.range cs.length ∧
       ∀ c ∈ cs, cs.length ≤ c.total) :=
  ⟨by decide, C4_frame_ids_and_chunk_order
    [(goodEnv, oneByteFrame), (goodEnv, oneByteFrame)] (by decide)⟩

/-- Claim C5: `Send` splits a frame into chunks of at most
`DCK = CHK - sizeof(PktHdr)` payload bytes, each prefixed by a header;
a frame whose chunk count is exactly 65 535 is fragmented and fully
sent (when nothing aborts the loop), while a frame requiring 65 536 or
more chunks is dropped with nothing sent and no frame id consumed. -/
theorem C5_chunk_sizes (s : VideoSendState) (env : SendEnv) (f : EncodedFrame)
    (hc : s.conn = true) (ha : s.authenticated = true) (ho : s.dcOpen = true)
    (hping : env.pingTimedOut = false) (hcov : s.consecutiveOverflows < MAX_OVERFLOWS)
    (hbuf : env.bufAmt ≤ BT) :
    DCK = CHK - HDR ∧
    (∀ c ∈ (sendFrame s env f).2, c.payload.length ≤ DCK) ∧
    ((f.data.length + DCK - 1) / DCK ≥ 65536 →
      sendFrame s env f = ({ s with consecutiveOverflows := 0 }, [])) ∧
    ((f.data.length + DCK - 1) / DCK = 65535 →
      (∀ j, env.sendOk j = true) → (∀ j, env.midBuf j ≤ BTH) →
      (sendFrame s env f).2.length = 65535 ∧
      List.map Chunk.idx (sendFrame s env f).2 = List.range 65535) := by
  have hcov' : ¬ s.consecutiveOverflows ≥ MAX_OVERFLOWS := by omega
  have hbuf' : ¬ env.bufAmt > BT := by omega
  refine ⟨rfl, ?_, ?_, ?_⟩
  · intro c hcm
    exact ((sendFrame_chunk_structure s env f).2 c hcm).2
  · intro hbig
    have hlt : 65535 < (f.data.length + DCK - 1) / DCK := by omega
    simp [sendFrame, hc, ha, ho, hping, hcov', hbuf', hlt]
  · intro hn hok hmid
    have hne : f.data.length ≠ 0 := by
      intro hz
      rw [hz] at hn
      simp [DCK, CHK, HDR] at hn
    have hcond : ¬ ((f.data.length + DCK - 1) / DCK > 65535 ∨ f.data.length = 0) := by
      rw [hn]
      simp [hne]
    have hsnd := sendFrame_deliver_snd hc ha ho hping hcov hbuf' hcond
    have hcomp := sendChunks_complete env f.data f.ts f.encUs f.isKey (s.fid % 2 ^ 32)
      ((f.data.length + DCK - 1) / DCK) hok hmid 0
    have hlen : (sendFrame s env f).2.length = 65535 := by
      rw [hsnd, hcomp.1, hn]
    refine ⟨hlen, ?_⟩
    have hspec := sendChunks_spec env f.data f.ts f.encUs f.isKey (s.fid % 2 ^ 32)
      ((f.data.length + DCK - 1) / DCK) 0
    rw [hsnd]
    rw [hspec.1]
    rw [← hsnd, hlen]
    rw [List.range_eq_range']

/-- Witness for C5 at a concrete input: a frame of 65 535 · 1379 bytes
(chunk count exactly 65 535) under a clean session and environment. -/
theorem C5_chunk_sizes_witness :
    (initSession.conn = true ∧ initSession.authenticated = true ∧
     initSession.dcOpen = true ∧ goodEnv.pingTimedOut = false ∧
     initSession.consecutiveOverflows < MAX_OVERFLOWS ∧ goodEnv.bufAmt ≤ BT ∧
     (bigFrame.data.length + DCK - 1) / DCK = 65535) ∧
    ((sendFrame initSession goodEnv bigFrame).2.length = 65535 ∧
     List.map Chunk.idx (sendFrame initSession goodEnv bigFrame).2 =
       List.range 65535) :=
  ⟨⟨rfl, rfl, rfl, rfl, by decide, Nat.zero_le _, by
      rw [show bigFrame.data = List.replicate 90372765 0 from rfl,
        List.length_replicate]
      decide⟩,
   (C5_chunk_sizes initSession goodEnv bigFrame rfl rfl rfl rfl
      (by decide) (Nat.zero_le _)).2.2.2
    (by
      rw [show bigFrame.data = List.replicate 90372765 0 from rfl,
        List.length_replicate]
      decide)
    (fun _ => rfl) (fun _ => Nat.zero_le _)⟩

theorem runSession_authGated (ops : List SessionOp) :
    ∀ s : SessionState, s.authenticated = false → authGated (runSession s ops) := by
  induction ops with
  | nil =>
    intro s _
    simp [runSession, authGated]
  | cons op rest ih =>
    intro s h
    cases op with
    | recvAuthRequest oc =>
      cases oc with
      | malformed =>
        simpa [runSession, sessionStep, authGated] using ih s h
      | badMagic =>
        simpa [runSession, sessionStep] using ih s h
      | badCreds =>
        simpa [runSession, sessionStep, authGated] using ih s h
      | valid =>
        simp [runSession, sessionStep, authGated]
    | recvPing ok =>
      simpa [runSession, sessionStep, h] using ih s h
    | recvFpsSet ok =>
      simpa [runSession, sessionStep, h] using ih s h
    | recvRequestKey =>
      simpa [runSession, sessionStep] using ih s h
    | recvMonitorSet ok =>
      simpa [runSession, sessionStep, h] using ih s h
    | recvInput =>
      simpa [runSession, sessionStep] using ih s h
    | recvClipboardMsg =>
      simpa [runSession, sessionStep] using ih s h
    | callSend deliver =>
      simpa [runSession, sessionStep, h] using ih s h
    | callSendAudio deliver =>
      simpa [runSession, sessionStep, h] using ih s h
    | callSendClipboard deliver =>
      simpa [runSession, sessionStep, h] using ih s h
    | disconnect =>
      simpa [runSession, sessionStep] using ih _ rfl

theorem sessionStep_auth_source (s : SessionState) (op : SessionOp)
    (h : (sessionStep s op).1.authenticated = true) :
    s.authenticated = true ∨ op = .recvAuthRequest .valid := by
  cases op with
  | recvAuthRequest oc =>
    cases oc with
    | malformed => exact Or.inl (by simpa [sessionStep] using h)
    | badMagic => exact Or.inl (by simpa [sessionStep] using h)
    | badCreds => exact Or.inl (by simpa [sessionStep] using h)
    | valid => exact Or.inr rfl
  | recvPing ok =>
    refine Or.inl ?_
    by_cases hc : s.authenticated ∧ ok <;> simpa [sessionStep, hc] using h
  | recvFpsSet ok =>
    refine Or.inl ?_
    by_cases hc : s.authenticated ∧ ok <;> simpa [sessionStep, hc] using h
  | recvRequestKey => exact Or.inl (by simpa [sessionStep] using h)
  | recvMonitorSet ok =>
    refine Or.inl ?_
    by_cases hc : s.authenticated ∧ ok <;> simpa [sessionStep, hc] using h
  | recvInput => exact Or.inl (by simpa [sessionStep] using h)
  | recvClipboardMsg => exact Or.inl (by simpa [sessionStep] using h)
  | callSend deliver =>
    refine Or.inl ?_
    by_cases hc : s.conn ∧ s.authenticated ∧ deliver <;> simpa [sessionStep, hc] using h
  | callSendAudio deliver =>
    refine Or.inl ?_
    by_cases hc : s.conn ∧ s.authenticated ∧ deliver <;> simpa [sessionStep, hc] using h
  | callSendClipboard deliver =>
    refine Or.inl ?_
    by_cases hc : s.conn ∧ s.authenticated ∧ deliver <;> simpa [sessionStep, hc] using h
  | disconnect => simp [sessionStep] at h

theorem runSessionState_auth_source (ops : List SessionOp) :
    ∀ s : SessionState, (runSessionState s ops).authenticated = true →
      s.authenticated = true ∨ SessionOp.recvAuthRequest .valid ∈ ops := by
  induction ops with
  | nil =>
    intro s h
    exact Or.inl h
  | cons op rest ih =>
    intro s h
    rcases ih (sessionStep s op).1 h with h1 | h2
    · rcases sessionStep_auth_source s op h1 with h3 | h4
      · exact Or.inl h3
      · exact Or.inr (by simp [h4])
    · exact Or.inr (List.mem_cons_of_mem _ h2)

/-- Claim C1: in every session, no host-originated message goes out on
the data channel before an `AuthResponse{success=1}` has been sent for
that session, except AuthResponse messages themselves — every path that
emits video frames (Send), audio packets (SendAudio), clipboard blobs
(SendClipboard), host info or the monitor list requires the session's
authenticated flag, and only a valid AuthRequest ever sets that
flag. -/
theorem C1_auth_precedes_data (ops : List SessionOp) :
    authGated (runSession sessionInit ops) ∧
    ((runSessionState sessionInit ops).authenticated = true →
      SessionOp.recvAuthRequest .valid ∈ ops) := by
  refine ⟨runSession_authGated ops sessionInit rfl, ?_⟩
  intro h
  rcases runSessionState_auth_source ops sessionInit h with h1 | h2
  · cases h1
  · exact h2
